import Mathlib

/-!
Verification of the llm-council orchestration/aggregation core.

Shallow embedding of `src/council/orchestrator.py`, `src/council/aggregator.py`
and `src/council/master_synthesizer.py` (data model from
`src/models/schemas.py`).  Python dicts are modelled as association lists with
Python's insertion semantics (insert updates the value at the first occurrence
of the key, otherwise appends; iteration is in insertion order).  Remote LLM
calls and the external `json.loads` / regex machinery are modelled by
parameters carrying their outcome; everything the repository itself computes is
translated directly.
-/

namespace LLMCouncil

/-- `ResearchDomain` enum from `src/models/schemas.py`. -/
inductive ResearchDomain
  | sports
  | finance
  | shopping
  | healthcare
deriving DecidableEq

/-- `ConfidenceLevel` enum from `src/models/schemas.py`. -/
inductive ConfidenceLevel
  | low
  | medium
  | high
  | very_high
deriving DecidableEq

/-- The `.value` string of a `ConfidenceLevel` member. -/
def ConfidenceLevel.value : ConfidenceLevel → String
  | .low => "low"
  | .medium => "medium"
  | .high => "high"
  | .very_high => "very_high"

/-- `ResearchResponse` pydantic model (`src/models/schemas.py`).  `timestamp`
is an abstract instant (its value never enters any computation). -/
structure ResearchResponse where
  query : String
  answer : String
  domain : ResearchDomain
  confidence : ConfidenceLevel
  key_points : List String
  sources : Option (List String)
  model_name : String
  timestamp : Nat
  tokens_used : Option Nat
deriving DecidableEq

/-- `ComparisonResult` pydantic model (`src/models/schemas.py`).  Fields not
declared in the schema (e.g. `reasoning_trace`) are silently dropped by
pydantic when passed to the constructor, so they do not appear here. -/
structure ComparisonResult where
  query : String
  domain : ResearchDomain
  responses : List (String × ResearchResponse)
  total_agents : Nat
  successful_agents : Nat
  failed_agents : List String
  consensus_points : List String
  disagreement_points : List String
  confidence_range : Option String
  synthesized_answer : Option String
  timestamp : Nat
  total_tokens : Option Nat
  total_cost : Option ℚ
deriving DecidableEq

/-! ### Python dict model -/

/-- Python `d[k] = v`: update the value at the first occurrence of `k`,
keeping its position, else append `(k, v)`. -/
def dictInsert {β : Type} (d : List (String × β)) (k : String) (v : β) :
    List (String × β) :=
  match d with
  | [] => [(k, v)]
  | (k', v') :: rest =>
    if k' = k then (k, v) :: rest else (k', v') :: dictInsert rest k v

/-- Python `d.get(k)` / `d[k]`: value at the first occurrence of `k`. -/
def dictGet {β : Type} (d : List (String × β)) (k : String) : Option β :=
  match d with
  | [] => none
  | (k', v) :: rest => if k' = k then some v else dictGet rest k

/-! ### Orchestrator (`src/council/orchestrator.py`) -/

/-- An agent as the orchestrator sees it: only its `model_name` identity is
used by `research_all`. -/
structure Agent where
  model_name : String
deriving DecidableEq

/-- `CouncilOrchestrator.research_all`, lines 70-145.  `results` is the list
returned positionally by `asyncio.gather(*tasks, return_exceptions=True)`:
one outcome per agent, an exception (`Except.error`) or a `ResearchResponse`.
The loop `for agent, result in zip(self.agents, results)` fills a dict with
`None` for an exception and the result otherwise.  The function is total: no
per-agent failure escapes it. -/
def research_all (agents : List Agent)
    (results : List (Except String ResearchResponse)) :
    List (String × Option ResearchResponse) :=
  (agents.zip results).foldl
    (fun acc p =>
      dictInsert acc p.1.model_name
        (match p.2 with
         | .error _ => none
         | .ok r => some r))
    []

/-! ### Rule-based aggregation (`src/council/aggregator.py`) -/

/-- Python character slicing `s[:n]` (by code points). -/
def pyslice (s : String) (n : Nat) : String :=
  String.mk (s.data.take n)

/-- Python truthiness of an `Optional[int]` (`None` and `0` are falsy). -/
def truthyNat : Option Nat → Bool
  | none => false
  | some t => t ≠ 0

/-- Python truthiness of an `Optional[str]` (`None` and `""` are falsy). -/
def truthyStr : Option String → Bool
  | none => false
  | some s => s ≠ ""

/-- `collections.Counter` built from a list: counts in first-insertion order. -/
def counter (l : List String) : List (String × Nat) :=
  l.foldl
    (fun acc s =>
      match dictGet acc s with
      | some n => dictInsert acc s (n + 1)
      | none => acc ++ [(s, 1)])
    []

namespace ResponseAggregator

/-- The successful entries of an outcome map, in dict order (the filtering
dict comprehension of `aggregator.py`). -/
def successesOf (responses : List (String × Option ResearchResponse)) :
    List (String × ResearchResponse) :=
  responses.filterMap (fun p => p.2.map (fun r => (p.1, r)))

/-- The failed model names of an outcome map, in dict order. -/
def failuresOf (responses : List (String × Option ResearchResponse)) :
    List String :=
  (responses.filter (fun p => p.2 = none)).map Prod.fst

/-- The static `ResponseAggregator.PRICING` table (USD per 1M tokens),
`dict.get` defaulting to `0.0` for unknown models. -/
def PRICING (model : String) : ℚ :=
  if model = "gpt-4o" then 3 / 20
  else if model = "gemini-2.5-flash" then 0
  else if model = "deepseek-r1:14b" then 0
  else 0

/-- `ResponseAggregator._find_consensus`, lines 263-299: with fewer than two
successes return `[]`; otherwise concatenate every success's `key_points`,
count occurrences with `Counter`, keep the points whose count is at least 2
(in the counter's first-insertion order) and take the first 5. -/
def find_consensus (responses : List (String × ResearchResponse)) :
    List String :=
  if responses.length < 2 then []
  else
    let all_key_points := (responses.map (fun p => p.2.key_points)).flatten
    let point_count := counter all_key_points
    (((point_count.filter (fun p => 2 ≤ p.2)).map Prod.fst).take 5)

/-- `ResponseAggregator._find_disagreements`, lines 301-342. -/
def find_disagreements (responses : List (String × ResearchResponse)) :
    List String :=
  if responses.length < 2 then []
  else
    let confidences := responses.map (fun p => p.2.confidence)
    let confDisagree :=
      if 1 < confidences.dedup.length then
        ["Confidence levels vary (" ++
          String.intercalate ", "
            (responses.map (fun p => p.1 ++ ": " ++ p.2.confidence.value)) ++
          ")"]
      else []
    let answer_lengths := responses.map (fun p => p.2.answer.length)
    let max_len := answer_lengths.foldl Nat.max 0
    let min_len := answer_lengths.foldl Nat.min (answer_lengths.headD 0)
    let lenDisagree :=
      if 3 * min_len < 2 * max_len then
        ["Response depth varies significantly (shortest: " ++
          toString min_len ++ " chars, longest: " ++ toString max_len ++
          " chars)"]
      else []
    confDisagree ++ lenDisagree

/-- The `conf_map` dict of `_analyze_confidence` (`dict.get` default `2`). -/
def conf_map (s : String) : Nat :=
  if s = "low" then 1
  else if s = "medium" then 2
  else if s = "high" then 3
  else if s = "very_high" then 4
  else 2

/-- The `reverse_map` lookup of `_analyze_confidence` (only keys 1-4 exist). -/
def reverse_map (n : Nat) : String :=
  if n = 1 then "low"
  else if n = 2 then "medium"
  else if n = 3 then "high"
  else if n = 4 then "very_high"
  else ""

/-- `ResponseAggregator._analyze_confidence`, lines 344-381. -/
def analyze_confidence (responses : List (String × ResearchResponse)) :
    String :=
  match responses with
  | [] => "unknown"
  | first :: rest =>
    let confidences := (first :: rest).map (fun p => p.2.confidence.value)
    if confidences.dedup.length = 1 then first.2.confidence.value
    else
      let conf_values := confidences.map conf_map
      let min_conf := conf_values.foldl Nat.min (conf_map first.2.confidence.value)
      let max_conf := conf_values.foldl Nat.max 0
      reverse_map min_conf ++ " to " ++ reverse_map max_conf

/-- The numbered consensus lines of `_synthesize_answer`
(`enumerate(consensus_points[:3], 1)`). -/
def numberedPoints : Nat → List String → List String
  | _, [] => []
  | i, p :: ps => (toString i ++ ". " ++ p) :: numberedPoints (i + 1) ps

/-- `ResponseAggregator._synthesize_answer`, lines 383-424. -/
def synthesize_answer (responses : List (String × ResearchResponse))
    (consensus_points : List String) : String :=
  match responses with
  | [] => "No successful responses to synthesize"
  | [single] => single.2.answer
  | _ =>
    let header :=
      if consensus_points ≠ [] then
        "Key consensus points:" :: numberedPoints 1 (consensus_points.take 3)
      else []
    let note :=
      "\nBased on " ++ toString responses.length ++ " AI models (" ++
        String.intercalate ", " (responses.map Prod.fst) ++
        "), this represents a synthesized view of their findings."
    String.intercalate " " (header ++ [note])

/-- `ResponseAggregator._calculate_total_tokens`, lines 426-444. -/
def calculate_total_tokens (responses : List (String × ResearchResponse)) :
    Nat :=
  responses.foldl
    (fun total p =>
      if truthyNat p.2.tokens_used then total + p.2.tokens_used.getD 0
      else total)
    0

/-- `ResponseAggregator._calculate_total_cost`, lines 446-472: skip entries
with falsy `tokens_used`, else add `(tokens_used / 1_000_000) * price`. -/
def calculate_total_cost (responses : List (String × ResearchResponse)) :
    ℚ :=
  responses.foldl
    (fun total p =>
      if truthyNat p.2.tokens_used then
        total + ((p.2.tokens_used.getD 0 : ℚ) / 1000000) * PRICING p.1
      else total)
    0

/-- `ResponseAggregator._aggregate_rule_based`, lines 181-261. -/
def aggregate_rule_based (responses : List (String × Option ResearchResponse))
    (query : String) (domain : ResearchDomain) : ComparisonResult :=
  let successful_responses := successesOf responses
  let failed_models := failuresOf responses
  let consensus_points := find_consensus successful_responses
  { query := query
    domain := domain
    responses := successful_responses
    total_agents := responses.length
    successful_agents := successful_responses.length
    failed_agents := failed_models
    consensus_points := consensus_points
    disagreement_points := find_disagreements successful_responses
    confidence_range := some (analyze_confidence successful_responses)
    synthesized_answer := some (synthesize_answer successful_responses consensus_points)
    timestamp := 0
    total_tokens := some (calculate_total_tokens successful_responses)
    total_cost := some (calculate_total_cost successful_responses) }

end ResponseAggregator

/-! ### Master synthesizer (`src/council/master_synthesizer.py`)

The remote OpenAI call and the external JSON machinery (`re.search` +
`json.loads`) are modelled by an explicit outcome: a `SynthesisCall` carries
the returned text together with the outcome of the two JSON-parsing attempts
(`fenced`: on the fenced ` ```json ` block, `whole`: on the whole text) and
the API usage record.  Each attempt has three possible outcomes: it failed
(no fenced block found, or `json.loads` raised `JSONDecodeError`), it
decoded a JSON object (projected onto the eight schema fields), or it
decoded a non-object JSON value such as `42` or an array — in that last case
`_validate_parsed_output`'s `field not in parsed` / `parsed[field] = ...`
(or, for a decoded string, the subsequent field access in `synthesize`)
raises `TypeError`, which the `except json.JSONDecodeError` clauses do not
catch, so it propagates to the caller.  A failed remote call is an
`Except.error`. -/

/-- The `usage` record of an OpenAI chat-completion response. -/
structure Usage where
  prompt_tokens : Nat
  completion_tokens : Nat
  total_tokens : Nat
deriving DecidableEq

/-- A JSON object as far as `_validate_parsed_output` inspects it: each of the
eight required fields either present (with a value of its schema type) or
absent. -/
structure PartialParsed where
  consensus_points : Option (List String) := none
  disagreement_points : Option (List String) := none
  knowledge_gaps : Option (List String) := none
  synthesized_answer : Option String := none
  confidence_range : Option String := none
  confidence_reasoning : Option String := none
  verification_needed : Option (List String) := none
  reasoning_trace : Option String := none
deriving DecidableEq

/-- The dict returned by `_parse_synthesis`: all eight fields present. -/
structure SynthesisRecord where
  consensus_points : List String
  disagreement_points : List String
  knowledge_gaps : List String
  synthesized_answer : String
  confidence_range : String
  confidence_reasoning : String
  verification_needed : List String
  reasoning_trace : String
deriving DecidableEq

/-- Outcome of one external JSON-parsing attempt (`json.loads` on the fenced
block or on the whole text): the attempt failed (`fail`: no fenced block was
found, or `json.loads` raised `JSONDecodeError`), it decoded a JSON object
(`obj`), or it decoded a non-object JSON value (`nonObject`: a number,
array, string, boolean or null). -/
inductive JsonAttempt where
  | fail
  | obj (parsed : PartialParsed)
  | nonObject
deriving DecidableEq

/-- Outcome of the secondary reasoning call together with the outcome of the
two external JSON-parsing attempts on its text. -/
structure SynthesisCall where
  text : String
  fenced : JsonAttempt
  whole : JsonAttempt
  usage : Option Usage

namespace MasterSynthesizer

/-- `MasterSynthesizer.PRICING`: `(input, output)` USD per 1M tokens; `none`
for models absent from the table (a `KeyError` in Python). -/
def PRICING (model : String) : Option (ℚ × ℚ) :=
  if model = "gpt-4o" then some (5 / 2, 10)
  else if model = "o1-mini" then some (3, 12)
  else if model = "o1" then some (15, 60)
  else if model = "o3-mini" then some (3, 12)
  else none

/-- A constructed `MasterSynthesizer`. -/
structure State where
  api_key : String
  model : String
deriving DecidableEq

/-- `MasterSynthesizer.__init__`, lines 77-102: `self.api_key = api_key or
os.getenv("OPENAI_API_KEY")`; raise `ValueError` when the result is falsy;
the init banner indexes `self.PRICING[model]`, a `KeyError` for unknown
models. -/
def init (api_key : Option String) (env_key : Option String)
    (model : String) : Except String State :=
  let resolved := if truthyStr api_key then api_key else env_key
  if ¬ truthyStr resolved then
    .error "OpenAI API key required for MasterSynthesizer"
  else
    match PRICING model with
    | none => .error "KeyError"
    | some _ => .ok { api_key := resolved.getD "", model := model }

/-- `MasterSynthesizer._validate_parsed_output`, lines 416-443: fill every
absent required field with its default (empty list / empty string /
`"medium"`), keep present fields unchanged. -/
def validate_parsed_output (parsed : PartialParsed) : SynthesisRecord :=
  { consensus_points := parsed.consensus_points.getD []
    disagreement_points := parsed.disagreement_points.getD []
    knowledge_gaps := parsed.knowledge_gaps.getD []
    synthesized_answer := parsed.synthesized_answer.getD ""
    confidence_range := parsed.confidence_range.getD "medium"
    confidence_reasoning := parsed.confidence_reasoning.getD ""
    verification_needed := parsed.verification_needed.getD []
    reasoning_trace := parsed.reasoning_trace.getD "" }

/-- `MasterSynthesizer._parse_natural_language`, lines 445-468. -/
def parse_natural_language (text : String) : SynthesisRecord :=
  { consensus_points := []
    disagreement_points := []
    knowledge_gaps := []
    synthesized_answer := pyslice text 1000
    confidence_range := "medium"
    confidence_reasoning := "Based on natural language synthesis"
    verification_needed := []
    reasoning_trace := pyslice text 500 }

/-- `MasterSynthesizer._parse_synthesis`, lines 372-414: validate the fenced
JSON block when one was found and decoded, else the whole-text parse, else
fall back to the natural-language record.  When an attempt decodes a
non-object JSON value, `_validate_parsed_output` raises `TypeError` (for a
decoded string the `TypeError` comes from the immediately following field
access), which only `except json.JSONDecodeError` guards — so it propagates
instead of falling through to the next strategy. -/
def parse_synthesis (fenced whole : JsonAttempt) (text : String) :
    Except String SynthesisRecord :=
  match fenced with
  | .obj parsed => .ok (validate_parsed_output parsed)
  | .nonObject => .error "TypeError"
  | .fail =>
    match whole with
    | .obj parsed => .ok (validate_parsed_output parsed)
    | .nonObject => .error "TypeError"
    | .fail => .ok (parse_natural_language text)

/-- `MasterSynthesizer._calculate_total_tokens`, lines 470-501. -/
def calculate_total_tokens (responses : List (String × ResearchResponse))
    (usage : Option Usage) : Nat :=
  let worker := responses.foldl
    (fun total p =>
      if truthyNat p.2.tokens_used then total + p.2.tokens_used.getD 0
      else total)
    0
  worker + (match usage with | some u => u.total_tokens | none => 0)

/-- `MasterSynthesizer._calculate_total_cost`, lines 503-540. -/
def calculate_total_cost (ms : State)
    (responses : List (String × ResearchResponse))
    (usage : Option Usage) : ℚ :=
  let worker_cost := ResponseAggregator.calculate_total_cost responses
  let master_cost :=
    match usage with
    | some u =>
      let prices := (PRICING ms.model).getD (0, 0)
      ((u.prompt_tokens : ℚ) / 1000000) * prices.1 +
        ((u.completion_tokens : ℚ) / 1000000) * prices.2
    | none => 0
  worker_cost + master_cost

/-- `MasterSynthesizer._create_failed_result`, lines 542-575. -/
def create_failed_result (query : String) (domain : ResearchDomain)
    (responses : List (String × Option ResearchResponse)) :
    ComparisonResult :=
  { query := query
    domain := domain
    responses := []
    total_agents := responses.length
    successful_agents := 0
    failed_agents := responses.map Prod.fst
    consensus_points := []
    disagreement_points := []
    confidence_range := some "low"
    synthesized_answer :=
      some "All agents failed to provide responses. Please check API keys and try again."
    timestamp := 0
    total_tokens := some 0
    total_cost := some 0 }

/-- `MasterSynthesizer.synthesize`, lines 104-239: raise `ValueError` on an
empty map, filter out `None` entries, short-circuit to the failed result when
nothing succeeded, otherwise issue the remote call (whose outcome is the
`call` parameter; its failure propagates) and build a `ComparisonResult` from
the parsed output; an uncaught `TypeError` from a non-object JSON parse also
propagates (`except Exception: ... raise`, lines 237-239).  Extra keyword
arguments (`reasoning_trace`, ...) are dropped by the pydantic schema. -/
def synthesize (ms : State) (query : String)
    (responses : List (String × Option ResearchResponse))
    (domain : ResearchDomain) (call : Except String SynthesisCall) :
    Except String ComparisonResult :=
  if responses.isEmpty then .error "No responses to synthesize"
  else
    let successful_responses := ResponseAggregator.successesOf responses
    let failed_models := ResponseAggregator.failuresOf responses
    if successful_responses.isEmpty then
      .ok (create_failed_result query domain responses)
    else
      match call with
      | .error e => .error e
      | .ok sc =>
        match parse_synthesis sc.fenced sc.whole sc.text with
        | .error e => .error e
        | .ok parsed =>
        .ok
          { query := query
            domain := domain
            responses := successful_responses
            total_agents := responses.length
            successful_agents := successful_responses.length
            failed_agents := failed_models
            consensus_points := parsed.consensus_points
            disagreement_points := parsed.disagreement_points
            confidence_range := some parsed.confidence_range
            synthesized_answer := some parsed.synthesized_answer
            timestamp := 0
            total_tokens :=
              some (calculate_total_tokens successful_responses sc.usage)
            total_cost :=
              some (calculate_total_cost ms successful_responses sc.usage) }

end MasterSynthesizer

/-! ### ResponseAggregator construction and strategy dispatch -/

namespace ResponseAggregator

/-- `MASTER_SYNTHESIZER_AVAILABLE`: the import at the top of `aggregator.py`
succeeds in the repository as shipped. -/
def MASTER_SYNTHESIZER_AVAILABLE : Bool := true

/-- A constructed `ResponseAggregator`. -/
structure State where
  use_master : Bool
  master_synthesizer : Option MasterSynthesizer.State
deriving DecidableEq

/-- `ResponseAggregator.__init__`, lines 74-99: request the master strategy,
try to construct `MasterSynthesizer(api_key=os.getenv("OPENAI_API_KEY"),
model="gpt-4o")`, and on any exception fall back to rule-based aggregation
(`self.use_master = False`) instead of propagating the error. -/
def init (use_master_synthesizer : Bool) (env_key : Option String) : State :=
  let use0 := use_master_synthesizer && MASTER_SYNTHESIZER_AVAILABLE
  if use0 then
    match MasterSynthesizer.init env_key env_key "gpt-4o" with
    | .ok ms => { use_master := true, master_synthesizer := some ms }
    | .error _ => { use_master := false, master_synthesizer := none }
  else { use_master := false, master_synthesizer := none }

/-- `ResponseAggregator._aggregate_with_master`, lines 132-179: with zero
successes return the inline all-failed result, else delegate to
`MasterSynthesizer.synthesize` on the successful entries only. -/
def aggregate_with_master (ms : MasterSynthesizer.State)
    (responses : List (String × Option ResearchResponse)) (query : String)
    (domain : ResearchDomain) (call : Except String SynthesisCall) :
    Except String ComparisonResult :=
  let successful_responses := successesOf responses
  if successful_responses.isEmpty then
    .ok
      { query := query
        domain := domain
        responses := []
        total_agents := responses.length
        successful_agents := 0
        failed_agents := responses.map Prod.fst
        consensus_points := []
        disagreement_points := []
        confidence_range := some "low"
        synthesized_answer := some "All agents failed to respond."
        timestamp := 0
        total_tokens := some 0
        total_cost := some 0 }
  else
    MasterSynthesizer.synthesize ms query
      (successful_responses.map (fun p => (p.1, some p.2))) domain call

/-- `ResponseAggregator.aggregate`, lines 101-130: dispatch on
`self.use_master and self.master_synthesizer`. -/
def aggregate (agg : State)
    (responses : List (String × Option ResearchResponse)) (query : String)
    (domain : ResearchDomain) (call : Except String SynthesisCall) :
    Except String ComparisonResult :=
  match agg.use_master, agg.master_synthesizer with
  | true, some ms => aggregate_with_master ms responses query domain call
  | _, _ => .ok (aggregate_rule_based responses query domain)

end ResponseAggregator

/-! ### Dict lemmas -/

theorem dictInsert_of_not_mem {β : Type} (d : List (String × β)) (k : String)
    (v : β) (h : k ∉ d.map Prod.fst) : dictInsert d k v = d ++ [(k, v)] := by
  induction d with
  | nil => rfl
  | cons p rest ih =>
    simp only [List.map_cons, List.mem_cons, not_or] at h
    simp only [dictInsert, List.cons_append, ih h.2]
    rw [if_neg (fun hh => h.1 hh.symm)]

theorem foldl_dictInsert {α β : Type} (f : α → String) (g : α → β)
    (l : List α) (acc : List (String × β))
    (h : (acc.map Prod.fst ++ l.map f).Nodup) :
    l.foldl (fun d p => dictInsert d (f p) (g p)) acc =
      acc ++ l.map (fun p => (f p, g p)) := by
  induction l generalizing acc with
  | nil => simp
  | cons a l ih =>
    have hnm : f a ∉ acc.map Prod.fst := by
      intro hmem
      rcases List.nodup_append.mp h with ⟨_, _, hdisj⟩
      exact hdisj hmem (by simp)
    have hstep : dictInsert acc (f a) (g a) = acc ++ [(f a, g a)] :=
      dictInsert_of_not_mem acc (f a) (g a) hnm
    have h' : ((acc ++ [(f a, g a)]).map Prod.fst ++ l.map f).Nodup := by
      simp only [List.map_append, List.map_cons, List.map_nil] at h ⊢
      simpa [List.append_assoc] using h
    calc (a :: l).foldl (fun d p => dictInsert d (f p) (g p)) acc
        = l.foldl (fun d p => dictInsert d (f p) (g p)) (acc ++ [(f a, g a)]) := by
          simp [List.foldl_cons, hstep]
      _ = (acc ++ [(f a, g a)]) ++ l.map (fun p => (f p, g p)) := ih _ h'
      _ = acc ++ (a :: l).map (fun p => (f p, g p)) := by simp

theorem dictGet_isSome_iff_mem {β : Type} (d : List (String × β))
    (k : String) : (dictGet d k).isSome ↔ k ∈ d.map Prod.fst := by
  induction d with
  | nil => simp [dictGet]
  | cons p rest ih =>
    by_cases hk : p.1 = k
    · simp [dictGet, hk]
    · simp [dictGet, hk, ih, Ne.symm hk]

theorem dictGet_of_mem_nodup {β : Type} (d : List (String × β)) (k : String)
    (v : β) (hnd : (d.map Prod.fst).Nodup) (hmem : (k, v) ∈ d) :
    dictGet d k = some v := by
  induction d with
  | nil => simp at hmem
  | cons p rest ih =>
    simp only [List.map_cons, List.nodup_cons] at hnd
    rcases List.mem_cons.mp hmem with heq | htail
    · simp [dictGet, ← heq]
    · have hk : p.1 ≠ k := by
        intro hk
        exact hnd.1 (hk ▸ (List.mem_map.mpr ⟨(k, v), htail, rfl⟩))
      simp [dictGet, hk, ih hnd.2 htail]

/-- Convert one `gather` outcome to the dict value stored by the
orchestrator's result loop. -/
def outcomeValue (res : Except String ResearchResponse) :
    Option ResearchResponse :=
  match res with
  | .error _ => none
  | .ok r => some r

/-- Normal form of `research_all` when model names are pairwise distinct:
the outcome map lists the agents in input order, each paired with its own
outcome. -/
theorem research_all_eq (agents : List Agent)
    (results : List (Except String ResearchResponse))
    (hnodup : (agents.map Agent.model_name).Nodup)
    (hlen : results.length = agents.length) :
    research_all agents results =
      (agents.zip results).map (fun p => (p.1.model_name, outcomeValue p.2)) := by
  unfold research_all
  have hfst : (agents.zip results).map (fun p => p.1.model_name) =
      agents.map Agent.model_name := by
    have : (agents.zip results).map (fun p => p.1.model_name) =
        ((agents.zip results).map Prod.fst).map Agent.model_name := by
      simp [List.map_map]
    rw [this, List.map_fst_zip _ _ (by omega)]
  have h : (([] : List (String × Option ResearchResponse)).map Prod.fst ++
      (agents.zip results).map (fun p => p.1.model_name)).Nodup := by
    simpa [hfst] using hnodup
  have := foldl_dictInsert (fun p : Agent × Except String ResearchResponse =>
    p.1.model_name) (fun p => outcomeValue p.2) (agents.zip results) [] h
  simpa [outcomeValue] using this

/-- Keys of the outcome map, in order, are the agents' model names. -/
theorem research_all_map_fst (agents : List Agent)
    (results : List (Except String ResearchResponse))
    (hnodup : (agents.map Agent.model_name).Nodup)
    (hlen : results.length = agents.length) :
    (research_all agents results).map Prod.fst =
      agents.map Agent.model_name := by
  rw [research_all_eq agents results hnodup hlen]
  have : ((agents.zip results).map
      (fun p => (p.1.model_name, outcomeValue p.2))).map Prod.fst =
      ((agents.zip results).map Prod.fst).map Agent.model_name := by
    simp [List.map_map]
  rw [this, List.map_fst_zip _ _ (by omega)]

/-! ### Sample data for witnesses -/

/-- Concrete sample `ResearchResponse` builder used by witnesses. -/
def mkResp (name ans : String) (conf : ConfidenceLevel) (pts : List String)
    (toks : Option Nat) : ResearchResponse :=
  { query := "q"
    answer := ans
    domain := ResearchDomain.healthcare
    confidence := conf
    key_points := pts
    sources := none
    model_name := name
    timestamp := 0
    tokens_used := toks }

/-! ### Claims -/

/-- C1: for every non-empty agent list with pairwise-distinct model names and
every per-agent outcome vector, `research_all` returns a map whose key set is
exactly the set of model names (size equal to the agent count); each failing
agent maps to the absent marker `None`, each succeeding agent maps to its own
result regardless of the other agents' outcomes, and the call is total (no
agent failure escapes it). -/
theorem C1_research_all_completeness_and_isolation
    (agents : List Agent) (results : List (Except String ResearchResponse))
    (hne : agents ≠ [])
    (hnodup : (agents.map Agent.model_name).Nodup)
    (hlen : results.length = agents.length) :
    (∀ k, (dictGet (research_all agents results) k).isSome ↔
        k ∈ agents.map Agent.model_name) ∧
    (research_all agents results).length = agents.length ∧
    (∀ i (hi : i < agents.length),
      (∀ e, results.get ⟨i, by omega⟩ = .error e →
        dictGet (research_all agents results)
          (agents.get ⟨i, hi⟩).model_name = some none) ∧
      (∀ r, results.get ⟨i, by omega⟩ = .ok r →
        dictGet (research_all agents results)
          (agents.get ⟨i, hi⟩).model_name = some (some r))) := by
  have hkeys := research_all_map_fst agents results hnodup hlen
  have hndM : ((research_all agents results).map Prod.fst).Nodup := by
    rw [hkeys]; exact hnodup
  refine ⟨?_, ?_, ?_⟩
  · intro k
    rw [dictGet_isSome_iff_mem, hkeys]
  · have := congrArg List.length hkeys
    simpa using this
  · intro i hi
    have hi' : i < results.length := by omega
    have hmem : ((agents.get ⟨i, hi⟩).model_name,
        outcomeValue (results.get ⟨i, hi'⟩)) ∈ research_all agents results := by
      rw [research_all_eq agents results hnodup hlen]
      have hzlen : i < (agents.zip results).length := by
        rw [List.length_zip]; omega
      have hz : (agents.zip results).get ⟨i, hzlen⟩ =
          (agents.get ⟨i, hi⟩, results.get ⟨i, hi'⟩) := by
        simp [List.get_eq_getElem, List.getElem_zip]
      have hmm := List.get_mem (agents.zip results) i hzlen
      rw [hz] at hmm
      exact List.mem_map.mpr ⟨_, hmm, rfl⟩
    constructor
    · intro e he
      simp only [List.get_eq_getElem] at he
      have hv : outcomeValue (results.get ⟨i, hi'⟩) = none := by
        simp only [outcomeValue, List.get_eq_getElem, he]
      rw [hv] at hmem
      exact dictGet_of_mem_nodup _ _ _ hndM hmem
    · intro r hr
      simp only [List.get_eq_getElem] at hr
      have hv : outcomeValue (results.get ⟨i, hi'⟩) = some r := by
        simp only [outcomeValue, List.get_eq_getElem, hr]
      rw [hv] at hmem
      exact dictGet_of_mem_nodup _ _ _ hndM hmem

/-- Witness for C1: two agents, the first succeeds, the second fails; the
succeeding agent keeps its result, the failing one maps to `None`. -/
theorem C1_witness :
    (research_all [⟨"gpt-4o"⟩, ⟨"gemini-2.5-flash"⟩]
        [.ok (mkResp "gpt-4o" "ans" .high ["P"] (some 500)), .error "boom"]).length = 2 ∧
    dictGet (research_all [⟨"gpt-4o"⟩, ⟨"gemini-2.5-flash"⟩]
        [.ok (mkResp "gpt-4o" "ans" .high ["P"] (some 500)), .error "boom"])
      "gpt-4o" = some (some (mkResp "gpt-4o" "ans" .high ["P"] (some 500))) ∧
    dictGet (research_all [⟨"gpt-4o"⟩, ⟨"gemini-2.5-flash"⟩]
        [.ok (mkResp "gpt-4o" "ans" .high ["P"] (some 500)), .error "boom"])
      "gemini-2.5-flash" = some none := by
  have h := C1_research_all_completeness_and_isolation
    [⟨"gpt-4o"⟩, ⟨"gemini-2.5-flash"⟩]
    [.ok (mkResp "gpt-4o" "ans" .high ["P"] (some 500)), .error "boom"]
    (by decide) (by decide) (by decide)
  refine ⟨h.2.1, ?_, ?_⟩
  · exact (h.2.2 0 (by decide)).2 (mkResp "gpt-4o" "ans" .high ["P"] (some 500)) rfl
  · exact (h.2.2 1 (by decide)).1 "boom" rfl

/-- C10: with pairwise-distinct model names, the outcome map's keys are in
exactly the input agent-list order — results are paired back to agents by
position, independent of completion order or failures. -/
theorem C10_research_all_key_order
    (agents : List Agent) (results : List (Except String ResearchResponse))
    (hnodup : (agents.map Agent.model_name).Nodup)
    (hlen : results.length = agents.length) :
    (research_all agents results).map Prod.fst =
      agents.map Agent.model_name :=
  research_all_map_fst agents results hnodup hlen

/-- Witness for C10: three agents with the middle one failing keep their
input order in the outcome map. -/
theorem C10_witness :
    (research_all [⟨"a"⟩, ⟨"b"⟩, ⟨"c"⟩]
        [.error "x", .ok (mkResp "b" "ans" .low [] none), .error "y"]).map
        Prod.fst = ["a", "b", "c"] := by
  have h := C10_research_all_key_order [⟨"a"⟩, ⟨"b"⟩, ⟨"c"⟩]
    [.error "x", .ok (mkResp "b" "ans" .low [] none), .error "y"]
    (by decide) (by decide)
  simpa using h

/-- C9: with exactly one successful result, rule-based aggregation's
synthesized answer is that agent's `answer`, character for character. -/
theorem C9_single_success_passthrough
    (responses : List (String × Option ResearchResponse)) (query : String)
    (domain : ResearchDomain) (m : String) (r : ResearchResponse)
    (h : ResponseAggregator.successesOf responses = [(m, r)]) :
    (ResponseAggregator.aggregate_rule_based responses query domain).synthesized_answer =
      some r.answer := by
  simp [ResponseAggregator.aggregate_rule_based, h,
    ResponseAggregator.synthesize_answer]

/-- Witness for C9: one success among two agents; the synthesized answer is
the success's answer verbatim. -/
theorem C9_witness :
    (ResponseAggregator.aggregate_rule_based
        [("gpt-4o", some (mkResp "gpt-4o" "the only answer" .high ["P"] (some 10))),
         ("gemini-2.5-flash", none)]
        "q" ResearchDomain.healthcare).synthesized_answer =
      some "the only answer" :=
  C9_single_success_passthrough _ "q" ResearchDomain.healthcare
    "gpt-4o" (mkResp "gpt-4o" "the only answer" .high ["P"] (some 10)) (by decide)

/-! ### C6: confidence range -/

/-- Modelled from the spec: the numeric confidence mapping
low=1, medium=2, high=3, very_high=4 applied to the enum itself. -/
def specLevelNum : ConfidenceLevel → Nat
  | .low => 1
  | .medium => 2
  | .high => 3
  | .very_high => 4

/-- Modelled from the spec: the label of a numeric confidence level. -/
def specLevelLabel (n : Nat) : String :=
  if n = 1 then "low"
  else if n = 2 then "medium"
  else if n = 3 then "high"
  else if n = 4 then "very_high"
  else ""

/-- Python `min` over a non-empty list of naturals. -/
def pymin : List Nat → Nat
  | [] => 0
  | x :: xs => xs.foldl Nat.min x

/-- Python `max` over a non-empty list of naturals. -/
def pymax : List Nat → Nat
  | [] => 0
  | x :: xs => xs.foldl Nat.max x

theorem conf_value_inj (a b : ConfidenceLevel) (h : a.value = b.value) :
    a = b := by
  cases a <;> cases b <;> first | rfl | exact absurd h (by decide)

theorem conf_map_value (c : ConfidenceLevel) :
    ResponseAggregator.conf_map c.value = specLevelNum c := by
  cases c <;> decide

theorem dedup_of_const {α : Type} [DecidableEq α] (l : List α) (x : α)
    (hne : l ≠ []) (h : ∀ y ∈ l, y = x) : l.dedup = [x] := by
  induction l with
  | nil => exact absurd rfl hne
  | cons a t ih =>
    have ha : a = x := h a (by simp)
    by_cases ht : t = []
    · subst ht ha
      simp
    · have ih' := ih ht (fun y hy => h y (by simp [hy]))
      have hmem : a ∈ t := by
        have : a ∈ t.dedup := by rw [ih']; simp [ha]
        exact List.mem_dedup.mp this
      rw [List.dedup_cons_of_mem hmem]
      exact ih'

theorem all_eq_of_dedup_length_one {α : Type} [DecidableEq α] (l : List α)
    (h : l.dedup.length = 1) : ∀ y ∈ l, ∀ z ∈ l, y = z := by
  obtain ⟨x, hx⟩ := List.length_eq_one.mp h
  intro y hy z hz
  have hy' : y = x := by
    have := List.mem_dedup.mpr hy
    rw [hx] at this
    simpa using this
  have hz' : z = x := by
    have := List.mem_dedup.mpr hz
    rw [hx] at this
    simpa using this
  rw [hy', hz']

/-- C6: for every non-empty success set, the rule-based confidence range is
the shared label verbatim when all confidences agree, and otherwise
`"{min_label} to {max_label}"` under low=1, medium=2, high=3, very_high=4. -/
theorem C6_confidence_range
    (responses : List (String × ResearchResponse))
    (hne : responses ≠ []) :
    (∀ c : ConfidenceLevel, (∀ p ∈ responses, p.2.confidence = c) →
      ResponseAggregator.analyze_confidence responses = c.value) ∧
    ((¬ ∀ p ∈ responses, ∀ q ∈ responses, p.2.confidence = q.2.confidence) →
      ResponseAggregator.analyze_confidence responses =
        specLevelLabel
            (pymin (responses.map (fun p => specLevelNum p.2.confidence))) ++
          " to " ++
          specLevelLabel
            (pymax (responses.map (fun p => specLevelNum p.2.confidence)))) := by
  match responses, hne with
  | first :: rest, _ =>
    constructor
    · intro c hall
      have hconst : ∀ y ∈ (first :: rest).map (fun p => p.2.confidence.value),
          y = c.value := by
        intro y hy
        obtain ⟨p, hp, rfl⟩ := List.mem_map.mp hy
        rw [hall p hp]
      have hded : ((first :: rest).map (fun p => p.2.confidence.value)).dedup =
          [c.value] :=
        dedup_of_const _ _ (by simp) hconst
      have hfst : first.2.confidence = c := hall first (by simp)
      have hcond : ((first :: rest).map
          (fun p => p.2.confidence.value)).dedup.length = 1 := by
        rw [hded]
        rfl
      simp only [ResponseAggregator.analyze_confidence]
      rw [if_pos hcond, hfst]
    · intro hneq
      have hlen : ((first :: rest).map
          (fun p => p.2.confidence.value)).dedup.length ≠ 1 := by
        intro h1
        apply hneq
        intro p hp q hq
        have := all_eq_of_dedup_length_one _ h1
          p.2.confidence.value (List.mem_map.mpr ⟨p, hp, rfl⟩)
          q.2.confidence.value (List.mem_map.mpr ⟨q, hq, rfl⟩)
        exact conf_value_inj _ _ this
      have hmapeq : ((first :: rest).map (fun p => p.2.confidence.value)).map
          ResponseAggregator.conf_map =
          (first :: rest).map (fun p => specLevelNum p.2.confidence) := by
        rw [List.map_map]
        exact List.map_congr_left (fun p _ => conf_map_value p.2.confidence)
      simp only [ResponseAggregator.analyze_confidence, if_neg hlen]
      rw [hmapeq]
      have hmin : ((first :: rest).map
            (fun p => specLevelNum p.2.confidence)).foldl Nat.min
            (ResponseAggregator.conf_map first.2.confidence.value) =
          pymin ((first :: rest).map (fun p => specLevelNum p.2.confidence)) := by
        simp only [List.map_cons, List.foldl_cons, pymin,
          conf_map_value first.2.confidence, Nat.min_self]
      have hmax : ((first :: rest).map
            (fun p => specLevelNum p.2.confidence)).foldl Nat.max 0 =
          pymax ((first :: rest).map (fun p => specLevelNum p.2.confidence)) := by
        simp only [List.map_cons, List.foldl_cons, pymax, Nat.zero_max]
      rw [hmin, hmax]
      have hlabel : ResponseAggregator.reverse_map = specLevelLabel :=
        funext (fun _ => rfl)
      rw [hlabel]

/-- Witness for C6: successes with confidences high, medium and very_high
yield the range string `"medium to very_high"`. -/
theorem C6_witness :
    ResponseAggregator.analyze_confidence
        [("a", mkResp "a" "ans1" .high [] none),
         ("b", mkResp "b" "ans2" .medium [] none),
         ("c", mkResp "c" "ans3" .very_high [] none)] =
      "medium to very_high" := by
  have h := (C6_confidence_range
    [("a", mkResp "a" "ans1" .high [] none),
     ("b", mkResp "b" "ans2" .medium [] none),
     ("c", mkResp "c" "ans3" .very_high [] none)]
    (by decide)).2 (by decide)
  rw [h]
  rfl

/-! ### C8: cost accounting -/

/-- The per-entry cost contribution: `(tokens_used/1_000_000) × price`,
with a missing token count treated as 0. -/
def costTerm (p : String × ResearchResponse) : ℚ :=
  ((p.2.tokens_used.getD 0 : ℚ) / 1000000) * ResponseAggregator.PRICING p.1

theorem calculate_total_cost_foldl
    (l : List (String × ResearchResponse)) (c : ℚ) :
    l.foldl
      (fun total p =>
        if truthyNat p.2.tokens_used then
          total + ((p.2.tokens_used.getD 0 : ℚ) / 1000000) *
            ResponseAggregator.PRICING p.1
        else total)
      c = c + (l.map costTerm).sum := by
  induction l generalizing c with
  | nil => simp
  | cons a l ih =>
    have hstep :
        (if truthyNat a.2.tokens_used then
          c + ((a.2.tokens_used.getD 0 : ℚ) / 1000000) *
            ResponseAggregator.PRICING a.1
         else c) = c + costTerm a := by
      match h : a.2.tokens_used with
      | none => simp [truthyNat, costTerm, h]
      | some t =>
        by_cases ht : t = 0
        · simp [truthyNat, costTerm, h, ht]
        · simp [truthyNat, costTerm, h, ht]
    simp only [List.foldl_cons, hstep, ih, List.map_cons, List.sum_cons]
    ring

/-- The cost computed by `_calculate_total_cost` equals the specification
sum. -/
theorem calculate_total_cost_eq_sum
    (l : List (String × ResearchResponse)) :
    ResponseAggregator.calculate_total_cost l = (l.map costTerm).sum := by
  have := calculate_total_cost_foldl l 0
  simpa [ResponseAggregator.calculate_total_cost] using this

/-- C8: rule-based `total_cost` is exactly the sum over successes of
`(tokens_used / 1_000_000) × price[model]` (price 0 for unknown models,
missing token counts treated as 0), and changing one success's token count
changes it linearly with slope `price[model] / 1_000_000`. -/
theorem C8_cost_additivity_and_linearity :
    (∀ (responses : List (String × Option ResearchResponse))
        (query : String) (domain : ResearchDomain),
      (ResponseAggregator.aggregate_rule_based responses query domain).total_cost =
        some (((ResponseAggregator.successesOf responses).map
          (fun p => ((p.2.tokens_used.getD 0 : ℚ) / 1000000) *
            ResponseAggregator.PRICING p.1)).sum)) ∧
    (∀ (pre post : List (String × ResearchResponse)) (m : String)
        (r : ResearchResponse) (t : Nat),
      ResponseAggregator.calculate_total_cost
          (pre ++ [(m, { r with tokens_used := some t })] ++ post) =
        ResponseAggregator.calculate_total_cost
          (pre ++ [(m, { r with tokens_used := none })] ++ post) +
          ((t : ℚ) / 1000000) * ResponseAggregator.PRICING m) := by
  constructor
  · intro responses query domain
    have h := calculate_total_cost_eq_sum (ResponseAggregator.successesOf responses)
    simp only [ResponseAggregator.aggregate_rule_based]
    rw [h]
    rfl
  · intro pre post m r t
    rw [calculate_total_cost_eq_sum, calculate_total_cost_eq_sum]
    simp only [List.map_append, List.sum_append, List.map_cons, List.map_nil,
      List.sum_cons, List.sum_nil, costTerm]
    simp only [Option.getD]
    ring

/-! ### C4: consensus detection -/

/-- Number of occurrences of `x` in `l`. -/
def occurrences (x : String) : List String → Nat
  | [] => 0
  | y :: l => (if y = x then 1 else 0) + occurrences x l

/-- First-seen deduplication, with an accumulator of already-seen strings. -/
def fodAux (seen : List String) : List String → List String
  | [] => []
  | x :: l => if x ∈ seen then fodAux seen l else x :: fodAux (x :: seen) l

/-- First-seen deduplication: each string kept at its first occurrence. -/
def firstOccurrenceDedup (l : List String) : List String :=
  fodAux [] l

theorem occurrences_append (x : String) (a b : List String) :
    occurrences x (a ++ b) = occurrences x a + occurrences x b := by
  induction a with
  | nil => simp [occurrences]
  | cons y a ih => simp [occurrences, ih]; ring

theorem occurrences_eq_zero_of_not_mem (x : String) (l : List String)
    (h : x ∉ l) : occurrences x l = 0 := by
  induction l with
  | nil => rfl
  | cons y l ih =>
    simp only [List.mem_cons, not_or] at h
    simp [occurrences, Ne.symm h.1, ih h.2]

theorem mem_fodAux (x : String) (l : List String) :
    ∀ seen, x ∈ fodAux seen l ↔ x ∈ l ∧ x ∉ seen := by
  induction l with
  | nil => simp [fodAux]
  | cons y l ih =>
    intro seen
    by_cases hy : y ∈ seen
    · rw [fodAux, if_pos hy, ih seen]
      constructor
      · exact fun h => ⟨List.mem_cons_of_mem _ h.1, h.2⟩
      · rintro ⟨hxl, hxs⟩
        rcases List.mem_cons.mp hxl with h | h
        · exact absurd (h ▸ hy) hxs
        · exact ⟨h, hxs⟩
    · rw [fodAux, if_neg hy]
      by_cases hxy : x = y
      · subst hxy
        simp [hy]
      · simp only [List.mem_cons, hxy, false_or, ih (y :: seen)]

theorem mem_firstOccurrenceDedup (x : String) (l : List String) :
    x ∈ firstOccurrenceDedup l ↔ x ∈ l := by
  rw [firstOccurrenceDedup, mem_fodAux]
  simp

theorem nodup_fodAux (l : List String) :
    ∀ seen, (fodAux seen l).Nodup := by
  induction l with
  | nil => intro seen; simp [fodAux]
  | cons y l ih =>
    intro seen
    by_cases hy : y ∈ seen
    · rw [fodAux, if_pos hy]
      exact ih seen
    · rw [fodAux, if_neg hy]
      refine List.nodup_cons.mpr ⟨?_, ih (y :: seen)⟩
      intro hmem
      exact ((mem_fodAux y l (y :: seen)).mp hmem).2 (by simp)

theorem nodup_firstOccurrenceDedup (l : List String) :
    (firstOccurrenceDedup l).Nodup :=
  nodup_fodAux l []

theorem fodAux_append_singleton (l : List String) (y : String) :
    ∀ seen, fodAux seen (l ++ [y]) =
      if y ∈ seen ∨ y ∈ l then fodAux seen l else fodAux seen l ++ [y] := by
  induction l with
  | nil =>
    intro seen
    by_cases hy : y ∈ seen
    · simp [fodAux, hy]
    · simp [fodAux, hy]
  | cons x l ih =>
    intro seen
    by_cases hx : x ∈ seen
    · rw [List.cons_append, fodAux, if_pos hx, ih seen, fodAux, if_pos hx]
      have hc : (y ∈ seen ∨ y ∈ l) ↔ (y ∈ seen ∨ y ∈ x :: l) := by
        constructor
        · rintro (h | h)
          · exact Or.inl h
          · exact Or.inr (List.mem_cons_of_mem _ h)
        · rintro (h | h)
          · exact Or.inl h
          · rcases List.mem_cons.mp h with h' | h'
            · exact Or.inl (h' ▸ hx)
            · exact Or.inr h'
      rw [if_congr hc rfl rfl]
    · rw [List.cons_append, fodAux, if_neg hx, ih (x :: seen), fodAux,
        if_neg hx]
      have hc : (y ∈ x :: seen ∨ y ∈ l) ↔ (y ∈ seen ∨ y ∈ x :: l) := by
        simp only [List.mem_cons]
        tauto
      rw [if_congr hc rfl rfl]
      by_cases hcond : y ∈ seen ∨ y ∈ x :: l
      · rw [if_pos hcond, if_pos hcond]
      · rw [if_neg hcond, if_neg hcond, List.cons_append]

theorem firstOccurrenceDedup_append_singleton (l : List String) (y : String) :
    firstOccurrenceDedup (l ++ [y]) =
      if y ∈ l then firstOccurrenceDedup l
      else firstOccurrenceDedup l ++ [y] := by
  rw [firstOccurrenceDedup, fodAux_append_singleton l y []]
  simp [firstOccurrenceDedup]

theorem dictGet_eq_none_of_not_mem {β : Type} (d : List (String × β))
    (k : String) (h : k ∉ d.map Prod.fst) : dictGet d k = none := by
  induction d with
  | nil => rfl
  | cons p rest ih =>
    simp only [List.map_cons, List.mem_cons, not_or] at h
    rw [dictGet, if_neg (fun hh => h.1 hh.symm)]
    exact ih h.2

theorem dictInsert_mapped (ks : List String) (g : String → Nat) (y : String)
    (v : Nat) (hy : y ∈ ks) (hnd : ks.Nodup) :
    dictInsert (ks.map (fun x => (x, g x))) y v =
      ks.map (fun x => (x, if x = y then v else g x)) := by
  induction ks with
  | nil => simp at hy
  | cons a ks ih =>
    simp only [List.nodup_cons] at hnd
    by_cases hay : a = y
    · subst hay
      rw [List.map_cons, List.map_cons, dictInsert, if_pos rfl, if_pos rfl]
      congr 1
      refine (List.map_congr_left ?_).symm
      intro x hx
      have hxa : ¬ x = a := fun hxa => hnd.1 (hxa ▸ hx)
      rw [if_neg hxa]
    · have hy' : y ∈ ks := by
        rcases List.mem_cons.mp hy with h | h
        · exact absurd h.symm hay
        · exact h
      rw [List.map_cons, List.map_cons, dictInsert, if_neg hay, ih hy' hnd.2,
        if_neg hay]

theorem counter_append_singleton (l : List String) (y : String) :
    counter (l ++ [y]) =
      (match dictGet (counter l) y with
       | some n => dictInsert (counter l) y (n + 1)
       | none => counter l ++ [(y, 1)]) := by
  simp only [counter, List.foldl_append, List.foldl_cons, List.foldl_nil]

theorem counter_map_fst (l : List String)
    (h : counter l = (firstOccurrenceDedup l).map (fun x => (x, occurrences x l))) :
    (counter l).map Prod.fst = firstOccurrenceDedup l := by
  rw [h, List.map_map]
  have hcomp : (Prod.fst ∘ fun x => (x, occurrences x l)) = id := rfl
  rw [hcomp, List.map_id]

/-- The `Counter` built by a left fold agrees with the specification:
distinct strings in first-occurrence order, each with its total number of
occurrences. -/
theorem counter_eq (l : List String) :
    counter l = (firstOccurrenceDedup l).map
      (fun x => (x, occurrences x l)) := by
  induction l using List.reverseRecOn with
  | nil => rfl
  | append_singleton l y ih =>
    rw [counter_append_singleton, firstOccurrenceDedup_append_singleton]
    by_cases hy : y ∈ l
    · have hget : dictGet (counter l) y = some (occurrences y l) := by
        apply dictGet_of_mem_nodup
        · rw [counter_map_fst l ih]
          exact nodup_firstOccurrenceDedup l
        · rw [ih]
          exact List.mem_map.mpr
            ⟨y, (mem_firstOccurrenceDedup y l).mpr hy, rfl⟩
      rw [hget]
      have hiota : (match some (occurrences y l) with
          | some n => dictInsert (counter l) y (n + 1)
          | none => counter l ++ [(y, 1)]) =
          dictInsert (counter l) y (occurrences y l + 1) := rfl
      rw [hiota, ih, if_pos hy,
        dictInsert_mapped _ _ _ _ ((mem_firstOccurrenceDedup y l).mpr hy)
          (nodup_firstOccurrenceDedup l)]
      refine List.map_congr_left ?_
      intro x hx
      by_cases hxy : x = y
      · subst hxy
        simp [occurrences_append, occurrences]
      · have hyx : ¬ y = x := fun h => hxy h.symm
        simp [hxy, occurrences_append, occurrences, hyx]
    · have hget : dictGet (counter l) y = none := by
        apply dictGet_eq_none_of_not_mem
        rw [counter_map_fst l ih]
        exact fun hmem => hy ((mem_firstOccurrenceDedup y l).mp hmem)
      rw [hget]
      have hiota : (match (none : Option Nat) with
          | some n => dictInsert (counter l) y (n + 1)
          | none => counter l ++ [(y, 1)]) = counter l ++ [(y, 1)] := rfl
      rw [hiota, ih, if_neg hy, List.map_append]
      congr 1
      · refine List.map_congr_left ?_
        intro x hx
        have hxl : x ∈ l := (mem_firstOccurrenceDedup x l).mp hx
        have hxy : ¬ y = x := fun h => hy (h ▸ hxl)
        simp [occurrences_append, occurrences, hxy]
      · simp [occurrences_append, occurrences,
          occurrences_eq_zero_of_not_mem y l hy]

/-- C4 counterexample: `_find_consensus` counts total occurrences, not
distinct agents.  With two successes, where agent "a" lists the key point
"X" twice and agent "b" does not list it at all, "X" is reported as a
consensus point although only one distinct agent mentions it — refuting the
claim that a point is included exactly when at least 2 distinct agents list
it. -/
theorem C4_counterexample :
    "X" ∈ ResponseAggregator.find_consensus
        [("a", mkResp "a" "answer a" .high ["X", "X"] none),
         ("b", mkResp "b" "answer b" .high ["Y"] none)] ∧
    ([("a", mkResp "a" "answer a" .high ["X", "X"] none),
      ("b", mkResp "b" "answer b" .high ["Y"] none)].filter
        (fun p => "X" ∈ p.2.key_points)).length = 1 := by
  constructor
  · decide
  · decide

/-- C4 (amended): with at least two successes, `consensus_points` is exactly
the first 5 distinct key points (in first-occurrence order) whose literal
text occurs at least twice in the concatenation of all successful agents'
key-point lists — repeated occurrences inside a single agent's list count
separately. -/
theorem C4_consensus_total_occurrences
    (responses : List (String × ResearchResponse))
    (h2 : 2 ≤ responses.length) :
    ResponseAggregator.find_consensus responses =
      ((firstOccurrenceDedup
          ((responses.map (fun p => p.2.key_points)).flatten)).filter
        (fun x => 2 ≤ occurrences x
          ((responses.map (fun p => p.2.key_points)).flatten))).take 5 := by
  have hlt : ¬ responses.length < 2 := by omega
  simp only [ResponseAggregator.find_consensus, if_neg hlt]
  rw [counter_eq, List.filter_map, List.map_map]
  have hcomp : (Prod.fst ∘ fun x =>
      (x, occurrences x ((responses.map (fun p => p.2.key_points)).flatten))) =
      id := rfl
  have hpred : ((fun p : String × Nat => decide (2 ≤ p.2)) ∘ fun x =>
      (x, occurrences x ((responses.map (fun p => p.2.key_points)).flatten))) =
      (fun x => decide (2 ≤ occurrences x
        ((responses.map (fun p => p.2.key_points)).flatten))) := rfl
  rw [hcomp, List.map_id, hpred]

/-- Witness for C4's amended theorem: three successes, a point shared
verbatim by two of them is in the consensus, a point named by only one is
not. -/
theorem C4_witness :
    ResponseAggregator.find_consensus
        [("a", mkResp "a" "answer a" .high ["Improves cardiovascular health", "Solo a"] none),
         ("b", mkResp "b" "answer b" .high ["Improves cardiovascular health"] none),
         ("c", mkResp "c" "answer c" .high ["Solo c"] none)] =
      ["Improves cardiovascular health"] := by
  have h := C4_consensus_total_occurrences
    [("a", mkResp "a" "answer a" .high ["Improves cardiovascular health", "Solo a"] none),
     ("b", mkResp "b" "answer b" .high ["Improves cardiovascular health"] none),
     ("c", mkResp "c" "answer c" .high ["Solo c"] none)]
    (by decide)
  rw [h]
  decide

/-- C7 counterexample: `_parse_synthesis` does not yield a record for every
text.  For the text `"42"` no fenced block exists, but the whole-text
`json.loads("42")` succeeds with the integer `42` — a non-object — and
`_validate_parsed_output`'s `field not in parsed` raises `TypeError`, which
the `except json.JSONDecodeError` clause does not catch: the call raises
instead of producing a record, refuting the claim's universal totality. -/
theorem C7_counterexample :
    MasterSynthesizer.parse_synthesis JsonAttempt.fail JsonAttempt.nonObject
        "42" = .error "TypeError" ∧
    ∀ rec, MasterSynthesizer.parse_synthesis JsonAttempt.fail
        JsonAttempt.nonObject "42" ≠ .ok rec := by
  constructor
  · rfl
  · intro rec h
    exact absurd h (by simp [MasterSynthesizer.parse_synthesis])

/-- C7 (amended): when a JSON attempt (fenced block first, then whole text)
decodes an object, `_parse_synthesis` keeps every present field and fills
every absent one with its schema-appropriate empty default (empty list /
empty string / `"medium"`), so all eight required fields are present and no
missing-key error propagates; when an attempt decodes a non-object JSON
value, the resulting `TypeError` propagates and no record is produced; when
neither attempt succeeds, the fallback record has empty lists,
`confidence_range` `"medium"`, `synthesized_answer` equal to at most the
first 1000 characters of the raw text and `reasoning_trace` at most the
first 500. -/
theorem C7_parse_synthesis_defaults
    (fenced whole : JsonAttempt) (text : String) :
    (∀ p, fenced = .obj p →
      MasterSynthesizer.parse_synthesis fenced whole text =
        .ok { consensus_points := p.consensus_points.getD []
              disagreement_points := p.disagreement_points.getD []
              knowledge_gaps := p.knowledge_gaps.getD []
              synthesized_answer := p.synthesized_answer.getD ""
              confidence_range := p.confidence_range.getD "medium"
              confidence_reasoning := p.confidence_reasoning.getD ""
              verification_needed := p.verification_needed.getD []
              reasoning_trace := p.reasoning_trace.getD "" }) ∧
    (fenced = .fail → ∀ p, whole = .obj p →
      MasterSynthesizer.parse_synthesis fenced whole text =
        .ok { consensus_points := p.consensus_points.getD []
              disagreement_points := p.disagreement_points.getD []
              knowledge_gaps := p.knowledge_gaps.getD []
              synthesized_answer := p.synthesized_answer.getD ""
              confidence_range := p.confidence_range.getD "medium"
              confidence_reasoning := p.confidence_reasoning.getD ""
              verification_needed := p.verification_needed.getD []
              reasoning_trace := p.reasoning_trace.getD "" }) ∧
    (fenced = .nonObject →
      MasterSynthesizer.parse_synthesis fenced whole text =
        .error "TypeError") ∧
    (fenced = .fail → whole = .nonObject →
      MasterSynthesizer.parse_synthesis fenced whole text =
        .error "TypeError") ∧
    (fenced = .fail → whole = .fail →
      MasterSynthesizer.parse_synthesis fenced whole text =
        .ok { consensus_points := []
              disagreement_points := []
              knowledge_gaps := []
              synthesized_answer := pyslice text 1000
              confidence_range := "medium"
              confidence_reasoning := "Based on natural language synthesis"
              verification_needed := []
              reasoning_trace := pyslice text 500 } ∧
      (pyslice text 1000).length ≤ 1000 ∧
      (pyslice text 500).length ≤ 500) := by
  refine ⟨?_, ?_, ?_, ?_, ?_⟩
  · intro p hp
    subst hp
    rfl
  · intro hf p hp
    subst hf hp
    rfl
  · intro hf
    subst hf
    rfl
  · intro hf hw
    subst hf hw
    rfl
  · intro hf hw
    subst hf hw
    refine ⟨rfl, ?_, ?_⟩
    · show (pyslice text 1000).length ≤ 1000
      have : (pyslice text 1000).length = (text.data.take 1000).length := rfl
      rw [this]
      exact le_trans (Nat.le_of_eq (List.length_take _ _)) (Nat.min_le_left _ _)
    · show (pyslice text 500).length ≤ 500
      have : (pyslice text 500).length = (text.data.take 500).length := rfl
      rw [this]
      exact le_trans (Nat.le_of_eq (List.length_take _ _)) (Nat.min_le_left _ _)

/-- Witness for C7's amended theorem: a fenced JSON object keeps its present
fields and fills the rest with defaults; non-JSON prose produces the
degenerate fallback record. -/
theorem C7_witness :
    MasterSynthesizer.parse_synthesis
        (JsonAttempt.obj { consensus_points := some ["c1"],
                           synthesized_answer := some "S" })
        JsonAttempt.fail "ignored" =
      .ok { consensus_points := ["c1"]
            disagreement_points := []
            knowledge_gaps := []
            synthesized_answer := "S"
            confidence_range := "medium"
            confidence_reasoning := ""
            verification_needed := []
            reasoning_trace := "" } ∧
    MasterSynthesizer.parse_synthesis JsonAttempt.fail JsonAttempt.fail
        "plain prose" =
      .ok { consensus_points := []
            disagreement_points := []
            knowledge_gaps := []
            synthesized_answer := "plain prose"
            confidence_range := "medium"
            confidence_reasoning := "Based on natural language synthesis"
            verification_needed := []
            reasoning_trace := "plain prose" } := by
  have h1 := (C7_parse_synthesis_defaults
    (JsonAttempt.obj { consensus_points := some ["c1"],
                       synthesized_answer := some "S" })
    JsonAttempt.fail "ignored").1 _ rfl
  have h2 := ((C7_parse_synthesis_defaults JsonAttempt.fail JsonAttempt.fail
    "plain prose").2.2.2.2 rfl rfl).1
  constructor
  · rw [h1]
    rfl
  · rw [h2]
    exact congrArg Except.ok (by decide)

/-! ### Partition lemmas for the aggregation invariants -/

theorem successesOf_eq_nil_of_all_none
    (responses : List (String × Option ResearchResponse))
    (hall : ∀ p ∈ responses, p.2 = none) :
    ResponseAggregator.successesOf responses = [] := by
  rw [ResponseAggregator.successesOf, List.filterMap_eq_nil_iff]
  intro p hp
  rw [hall p hp]
  rfl

theorem failuresOf_eq_keys_of_all_none
    (responses : List (String × Option ResearchResponse))
    (hall : ∀ p ∈ responses, p.2 = none) :
    ResponseAggregator.failuresOf responses = responses.map Prod.fst := by
  rw [ResponseAggregator.failuresOf]
  congr 1
  apply List.filter_eq_self.mpr
  intro p hp
  simp [hall p hp]

theorem successesOf_cons_none (k : String)
    (l : List (String × Option ResearchResponse)) :
    ResponseAggregator.successesOf ((k, none) :: l) =
      ResponseAggregator.successesOf l := rfl

theorem successesOf_cons_some (k : String) (r : ResearchResponse)
    (l : List (String × Option ResearchResponse)) :
    ResponseAggregator.successesOf ((k, some r) :: l) =
      (k, r) :: ResponseAggregator.successesOf l := rfl

theorem failuresOf_cons_none (k : String)
    (l : List (String × Option ResearchResponse)) :
    ResponseAggregator.failuresOf ((k, none) :: l) =
      k :: ResponseAggregator.failuresOf l := by
  simp [ResponseAggregator.failuresOf, List.filter_cons]

theorem failuresOf_cons_some (k : String) (r : ResearchResponse)
    (l : List (String × Option ResearchResponse)) :
    ResponseAggregator.failuresOf ((k, some r) :: l) =
      ResponseAggregator.failuresOf l := by
  simp [ResponseAggregator.failuresOf, List.filter_cons]

theorem successesOf_wrap (l : List (String × ResearchResponse)) :
    ResponseAggregator.successesOf (l.map (fun p => (p.1, some p.2))) = l := by
  induction l with
  | nil => rfl
  | cons a l ih =>
    rw [List.map_cons, successesOf_cons_some, ih]

theorem failuresOf_wrap (l : List (String × ResearchResponse)) :
    ResponseAggregator.failuresOf (l.map (fun p => (p.1, some p.2))) = [] := by
  induction l with
  | nil => rfl
  | cons a l ih =>
    rw [List.map_cons, failuresOf_cons_some, ih]

theorem successes_failures_length
    (responses : List (String × Option ResearchResponse)) :
    (ResponseAggregator.successesOf responses).length +
      (ResponseAggregator.failuresOf responses).length = responses.length := by
  induction responses with
  | nil => rfl
  | cons p l ih =>
    obtain ⟨k, v⟩ := p
    match v with
    | none =>
      rw [successesOf_cons_none, failuresOf_cons_none]
      simp only [List.length_cons]
      omega
    | some r =>
      rw [successesOf_cons_some, failuresOf_cons_some]
      simp only [List.length_cons]
      omega

/-- C3: on an outcome map in which every agent failed, `aggregate` (under
either strategy) returns — without raising — a `ComparisonResult` with zero
successes, all invoked model names as `failed_agents`, empty consensus and
disagreement lists and the strategy's fixed failure message. -/
theorem C3_all_failed_fixed_result
    (responses : List (String × Option ResearchResponse))
    (hall : ∀ p ∈ responses, p.2 = none)
    (agg : ResponseAggregator.State) (query : String)
    (domain : ResearchDomain) (call : Except String SynthesisCall) :
    ∃ r, ResponseAggregator.aggregate agg responses query domain call = .ok r ∧
      r.successful_agents = 0 ∧
      r.failed_agents = responses.map Prod.fst ∧
      r.consensus_points = [] ∧
      r.disagreement_points = [] ∧
      (r.synthesized_answer = some "No successful responses to synthesize" ∨
       r.synthesized_answer = some "All agents failed to respond.") := by
  have hsucc := successesOf_eq_nil_of_all_none responses hall
  have hfail := failuresOf_eq_keys_of_all_none responses hall
  have hrule : ∀ query domain,
      (ResponseAggregator.aggregate_rule_based responses query domain).successful_agents = 0 ∧
      (ResponseAggregator.aggregate_rule_based responses query domain).failed_agents =
        responses.map Prod.fst ∧
      (ResponseAggregator.aggregate_rule_based responses query domain).consensus_points = [] ∧
      (ResponseAggregator.aggregate_rule_based responses query domain).disagreement_points = [] ∧
      (ResponseAggregator.aggregate_rule_based responses query domain).synthesized_answer =
        some "No successful responses to synthesize" := by
    intro query domain
    refine ⟨?_, hfail, ?_, ?_, ?_⟩
    · show (ResponseAggregator.successesOf responses).length = 0
      rw [hsucc]
      rfl
    · show ResponseAggregator.find_consensus
        (ResponseAggregator.successesOf responses) = []
      rw [hsucc]
      rfl
    · show ResponseAggregator.find_disagreements
        (ResponseAggregator.successesOf responses) = []
      rw [hsucc]
      rfl
    · show some (ResponseAggregator.synthesize_answer
        (ResponseAggregator.successesOf responses)
        (ResponseAggregator.find_consensus
          (ResponseAggregator.successesOf responses))) =
        some "No successful responses to synthesize"
      rw [hsucc]
      rfl
  obtain ⟨um, ms⟩ := agg
  match um, ms with
  | true, some m =>
    have heq : ResponseAggregator.aggregate ⟨true, some m⟩ responses query
        domain call =
        .ok { query := query, domain := domain, responses := [],
              total_agents := responses.length, successful_agents := 0,
              failed_agents := responses.map Prod.fst, consensus_points := [],
              disagreement_points := [], confidence_range := some "low",
              synthesized_answer := some "All agents failed to respond.",
              timestamp := 0, total_tokens := some 0, total_cost := some 0 } := by
      show ResponseAggregator.aggregate_with_master m responses query domain
        call = _
      rw [ResponseAggregator.aggregate_with_master, hsucc]
      rfl
    exact ⟨_, heq, rfl, rfl, rfl, rfl, Or.inr rfl⟩
  | true, none =>
    exact ⟨_, rfl, (hrule query domain).1, (hrule query domain).2.1,
      (hrule query domain).2.2.1, (hrule query domain).2.2.2.1,
      Or.inl (hrule query domain).2.2.2.2⟩
  | false, some m =>
    exact ⟨_, rfl, (hrule query domain).1, (hrule query domain).2.1,
      (hrule query domain).2.2.1, (hrule query domain).2.2.2.1,
      Or.inl (hrule query domain).2.2.2.2⟩
  | false, none =>
    exact ⟨_, rfl, (hrule query domain).1, (hrule query domain).2.1,
      (hrule query domain).2.2.1, (hrule query domain).2.2.2.1,
      Or.inl (hrule query domain).2.2.2.2⟩

/-- Witness for C3: two failed agents, rule-based aggregator. -/
theorem C3_witness :
    ∃ r, ResponseAggregator.aggregate ⟨false, none⟩ [("a", none), ("b", none)]
        "q" ResearchDomain.sports (.error "api down") = .ok r ∧
      r.successful_agents = 0 ∧
      r.failed_agents = [("a", (none : Option ResearchResponse)),
        ("b", none)].map Prod.fst ∧
      r.consensus_points = [] ∧
      r.disagreement_points = [] ∧
      (r.synthesized_answer = some "No successful responses to synthesize" ∨
       r.synthesized_answer = some "All agents failed to respond.") :=
  C3_all_failed_fixed_result [("a", none), ("b", none)] (by decide)
    ⟨false, none⟩ "q" ResearchDomain.sports (.error "api down")

theorem rule_based_invariants
    (responses : List (String × Option ResearchResponse)) (query : String)
    (domain : ResearchDomain) :
    (ResponseAggregator.aggregate_rule_based responses query domain).successful_agents +
      (ResponseAggregator.aggregate_rule_based responses query domain).failed_agents.length =
      (ResponseAggregator.aggregate_rule_based responses query domain).total_agents ∧
    (ResponseAggregator.aggregate_rule_based responses query domain).responses.map Prod.fst =
      (ResponseAggregator.successesOf responses).map Prod.fst := by
  constructor
  · show (ResponseAggregator.successesOf responses).length +
      (ResponseAggregator.failuresOf responses).length = responses.length
    exact successes_failures_length responses
  · rfl

/-- C2: every `ComparisonResult` returned by `aggregate` (under either
strategy) satisfies `successful_agents + len(failed_agents) == total_agents`,
and the keys of its `responses` field are exactly the model names whose
outcome-map entry was a success. -/
theorem C2_comparison_result_invariants
    (agg : ResponseAggregator.State)
    (responses : List (String × Option ResearchResponse)) (query : String)
    (domain : ResearchDomain) (call : Except String SynthesisCall)
    (r : ComparisonResult)
    (h : ResponseAggregator.aggregate agg responses query domain call = .ok r) :
    r.successful_agents + r.failed_agents.length = r.total_agents ∧
    r.responses.map Prod.fst =
      (ResponseAggregator.successesOf responses).map Prod.fst := by
  obtain ⟨um, ms⟩ := agg
  match um, ms with
  | true, some m =>
    replace h : ResponseAggregator.aggregate_with_master m responses query
        domain call = .ok r := h
    rw [ResponseAggregator.aggregate_with_master] at h
    cases hs : ResponseAggregator.successesOf responses with
    | nil =>
      rw [hs] at h
      simp only [List.isEmpty_nil, if_true, Except.ok.injEq] at h
      subst h
      exact ⟨by simp, rfl⟩
    | cons a s' =>
      rw [hs] at h
      simp only [List.isEmpty_cons, if_false, Bool.false_eq_true] at h
      rw [MasterSynthesizer.synthesize] at h
      simp only [List.map_cons, List.isEmpty_cons, Bool.false_eq_true,
        if_false] at h
      rw [show ((a.1, some a.2) :: s'.map (fun p => (p.1, some p.2))) =
        ((a :: s').map (fun p => (p.1, some p.2))) from rfl] at h
      rw [successesOf_wrap, failuresOf_wrap] at h
      simp only [List.isEmpty_cons, Bool.false_eq_true, if_false] at h
      match call with
      | .error e => exact absurd h (by simp)
      | .ok sc =>
        dsimp only at h
        match hp : MasterSynthesizer.parse_synthesis sc.fenced sc.whole
            sc.text with
        | .error e =>
          rw [hp] at h
          exact Except.noConfusion h
        | .ok parsed =>
          rw [hp] at h
          injection h with h'
          subst h'
          exact ⟨by simp, rfl⟩
  | true, none =>
    replace h : Except.ok (ResponseAggregator.aggregate_rule_based responses
      query domain) = .ok r := h
    injection h with h'
    subst h'
    exact rule_based_invariants responses query domain
  | false, some m =>
    replace h : Except.ok (ResponseAggregator.aggregate_rule_based responses
      query domain) = .ok r := h
    injection h with h'
    subst h'
    exact rule_based_invariants responses query domain
  | false, none =>
    replace h : Except.ok (ResponseAggregator.aggregate_rule_based responses
      query domain) = .ok r := h
    injection h with h'
    subst h'
    exact rule_based_invariants responses query domain

/-- Witness for C2: a mixed success/failure outcome map through the
rule-based strategy. -/
theorem C2_witness :
    (ResponseAggregator.aggregate_rule_based
        [("a", some (mkResp "a" "long answer" .high ["P"] (some 7))), ("b", none)]
        "q" ResearchDomain.sports).successful_agents +
      (ResponseAggregator.aggregate_rule_based
        [("a", some (mkResp "a" "long answer" .high ["P"] (some 7))), ("b", none)]
        "q" ResearchDomain.sports).failed_agents.length =
      (ResponseAggregator.aggregate_rule_based
        [("a", some (mkResp "a" "long answer" .high ["P"] (some 7))), ("b", none)]
        "q" ResearchDomain.sports).total_agents ∧
    (ResponseAggregator.aggregate_rule_based
        [("a", some (mkResp "a" "long answer" .high ["P"] (some 7))), ("b", none)]
        "q" ResearchDomain.sports).responses.map Prod.fst =
      (ResponseAggregator.successesOf
        [("a", some (mkResp "a" "long answer" .high ["P"] (some 7))), ("b", none)]).map
        Prod.fst :=
  C2_comparison_result_invariants ⟨false, none⟩
    [("a", some (mkResp "a" "long answer" .high ["P"] (some 7))), ("b", none)]
    "q" ResearchDomain.sports (.error "down") _ rfl

/-- C5 counterexample: with Strategy B selected and no OpenAI credential,
`MasterSynthesizer.__init__` does raise, but `ResponseAggregator.__init__`
catches the exception and falls back to rule-based aggregation: construction
succeeds with `use_master = False` and `aggregate` returns the rule-based
result — no error is surfaced to the caller, refuting the claim that the
missing credential is fatal to the call. -/
theorem C5_counterexample :
    MasterSynthesizer.init none none "gpt-4o" =
      .error "OpenAI API key required for MasterSynthesizer" ∧
    (ResponseAggregator.init true none).use_master = false ∧
    (ResponseAggregator.init true none).master_synthesizer = none ∧
    ResponseAggregator.aggregate (ResponseAggregator.init true none)
        [("a", some (mkResp "a" "some answer" .high [] none))] "q"
        ResearchDomain.sports (.error "never called") =
      .ok (ResponseAggregator.aggregate_rule_based
        [("a", some (mkResp "a" "some answer" .high [] none))] "q"
        ResearchDomain.sports) :=
  ⟨rfl, rfl, rfl, rfl⟩

/-- C5 (amended): when Strategy B is requested and the OpenAI credential is
missing (unset or empty), `MasterSynthesizer.__init__` raises, but
`ResponseAggregator.__init__` catches the exception and silently downgrades
to the rule-based strategy: the aggregator is constructed with
`use_master = False` and every subsequent `aggregate` call returns the
rule-based result without surfacing any error. -/
theorem C5_missing_credential_downgrades
    (env_key : Option String) (hmissing : truthyStr env_key = false) :
    (∃ e, MasterSynthesizer.init env_key env_key "gpt-4o" = .error e) ∧
    (ResponseAggregator.init true env_key).use_master = false ∧
    (ResponseAggregator.init true env_key).master_synthesizer = none ∧
    (∀ responses query domain call,
      ResponseAggregator.aggregate (ResponseAggregator.init true env_key)
          responses query domain call =
        .ok (ResponseAggregator.aggregate_rule_based responses query domain)) := by
  have hms : MasterSynthesizer.init env_key env_key "gpt-4o" =
      .error "OpenAI API key required for MasterSynthesizer" := by
    rw [MasterSynthesizer.init, ite_self]
    rw [if_pos]
    simp [hmissing]
  have hinit : ResponseAggregator.init true env_key =
      { use_master := false, master_synthesizer := none } := by
    rw [ResponseAggregator.init]
    simp only [ResponseAggregator.MASTER_SYNTHESIZER_AVAILABLE, Bool.and_self,
      if_true, hms]
  refine ⟨⟨_, hms⟩, ?_, ?_, ?_⟩
  · rw [hinit]
  · rw [hinit]
  · intro responses query domain call
    rw [hinit]
    rfl

/-- Witness for C5's amended theorem: unset credential. -/
theorem C5_witness :
    (∃ e, MasterSynthesizer.init none none "gpt-4o" = .error e) ∧
    (ResponseAggregator.init true none).use_master = false ∧
    ResponseAggregator.aggregate (ResponseAggregator.init true none)
        [("b", none)] "q" ResearchDomain.finance (.error "boom") =
      .ok (ResponseAggregator.aggregate_rule_based [("b", none)] "q"
        ResearchDomain.finance) := by
  have h := C5_missing_credential_downgrades none rfl
  exact ⟨h.1, h.2.1, h.2.2.2 [("b", none)] "q" ResearchDomain.finance
    (.error "boom")⟩

end LLMCouncil
